import Mathlib

/-!
Shallow embedding of the `nodefflag` Go package (myENA/nodefflag).

The package defines, for each of the eight supported types
(string, bool, int, int64, uint, uint64, float64, time.Duration),
two flag-value adapters:

* the "no default" (ND) adapters `ndsf`, `ndbf`, `ndif`, `ndi64f`,
  `nduif`, `ndui64f`, `ndff`, `nddf`, whose backing cell is a
  pointer-to-pointer: inner pointer nil = flag not supplied,
  inner pointer non-nil = flag supplied with that value;
* the "zero value" (ZV) adapters `zvsf`, `zvbf`, `zvif`, `zvi64f`,
  `zvuif`, `zvui64f`, `zvff`, `zvdff`, whose backing cell is a plain
  value slot.

Machine integers are embedded as `Nat` / `Int` with explicit range and
truncation arithmetic (`% 2 ^ w`); Go `float64` text is parsed into exact
rationals (the binary64 rounding of the parsed value is not modelled; no
theorem below depends on the rounded value, only on success/failure and
on pass-through of values); Go errors become an explicit error type.

An ND adapter's inner cell (`*T` behind the `**T`) is embedded as
`Option τ`; in the sections about caller-supplied outer pointers the
outer `**T` itself is additionally embedded as `Option (Option τ)`,
`none` meaning a nil outer pointer (whose dereference faults).
-/

/-- Go `strconv` error kinds: `strconv.ErrSyntax` and `strconv.ErrRange`. -/
inductive ErrKind where
  | errSyn : ErrKind
  | errRange : ErrKind
deriving DecidableEq, Repr

/-- Go error values produced by the parsing routines the adapters call:
`strconv.NumError{Func, Num, Err}` for the `strconv` parsers, and the
plain message errors of `time.ParseDuration`. -/
inductive GoErr where
  | num (fn : String) (literal : String) (kind : ErrKind) : GoErr
  | dur (msg : String) : GoErr
deriving DecidableEq, Repr

deriving instance DecidableEq for Except

/-- `strconv.ParseBool`: the exact set of accepted literals. -/
def goParseBool (s : String) : Except GoErr Bool :=
  if s = "1" ∨ s = "t" ∨ s = "T" ∨ s = "true" ∨ s = "TRUE" ∨ s = "True" then
    .ok true
  else if s = "0" ∨ s = "f" ∨ s = "F" ∨ s = "false" ∨ s = "FALSE" ∨ s = "False" then
    .ok false
  else
    .error (.num "ParseBool" s .errSyn)

/-- The digit loop of Go `strconv.ParseUint` (base 10): consumes decimal
digits left to right; a non-digit stops the loop with a syntax error at
once, and overflow past `maxVal` stops it with a range error at once
(Go returns `maxVal` in that case, which `ParseInt` reuses). -/
def parseUintDigits (maxVal cutoff : Nat) : List Char → Nat → Nat × Option ErrKind
  | [], n => (n, none)
  | c :: rest, n =>
    if '0' ≤ c ∧ c ≤ '9' then
      if n ≥ cutoff then (maxVal, some .errRange)
      else
        let n1 := n * 10 + (c.toNat - 48)
        if n1 > maxVal then (maxVal, some .errRange)
        else parseUintDigits maxVal cutoff rest n1
    else (0, some .errSyn)

/-- `2 ^ 64 - 1`, the `maxVal` of `strconv.ParseUint(s, 10, 64)`. -/
def maxU64 : Nat := 2 ^ 64 - 1

/-- Go's `cutoff = maxVal/base + 1` for base 10, bit size 64. -/
def cutoffU64 : Nat := maxU64 / 10 + 1

/-- `strconv.ParseUint(s, 10, 64)`: empty input and non-digits are syntax
errors; values past `2 ^ 64 - 1` are range errors. -/
def goParseUint (s : String) : Except GoErr Nat :=
  if s.data.isEmpty then .error (.num "ParseUint" s .errSyn)
  else
    match parseUintDigits maxU64 cutoffU64 s.data 0 with
    | (n, none) => .ok n
    | (_, some k) => .error (.num "ParseUint" s k)

/-- Shared body of `strconv.ParseInt(s, 10, bitSize)`: optional sign, then
the `ParseUint` digit loop at 64 bits, then the signed cutoff checks
(`un >= 1<<(bitSize-1)` positive, `un > 1<<(bitSize-1)` negative).
A range error from the inner unsigned parse leaves `un = maxU64`, which
then trips the signed cutoff check, exactly as in Go. -/
def goParseIntCore (fn : String) (s : String) (bitSize : Nat) : Except GoErr Int :=
  if s.data.isEmpty then .error (.num fn s .errSyn)
  else
    let (neg, rest) :=
      match s.data with
      | c :: cs => if c = '+' then (false, cs) else if c = '-' then (true, cs) else (false, s.data)
      | [] => (false, s.data)
    if rest.isEmpty then .error (.num fn s .errSyn)
    else
      match parseUintDigits maxU64 cutoffU64 rest 0 with
      | (_, some .errSyn) => .error (.num fn s .errSyn)
      | (un, _) =>
        let cutoff : Nat := 2 ^ (bitSize - 1)
        if !neg ∧ un ≥ cutoff then .error (.num fn s .errRange)
        else if neg ∧ un > cutoff then .error (.num fn s .errRange)
        else .ok (if neg then -(un : Int) else (un : Int))

/-- `strconv.ParseInt(s, 10, 64)`. -/
def goParseInt64 (s : String) : Except GoErr Int :=
  goParseIntCore "ParseInt" s 64

/-- `strconv.Atoi`: `ParseInt(s, 10, 0)` at the platform int width `w`
(32 or 64), with the error's `Func` field set to `Atoi`. -/
def goAtoi (w : Nat) (s : String) : Except GoErr Int :=
  goParseIntCore "Atoi" s w

/-- Lowercase an ASCII letter, Go's `lower(c) = c | ('x' - 'X')`. -/
def lowerC (c : Char) : Char := Char.ofNat (c.toNat ||| 32)

/-- Hex digit character for `n < 16` (lowercase, as in Go's quoting). -/
def hexDigit (n : Nat) : Char :=
  if n < 10 then Char.ofNat (48 + n) else Char.ofNat (87 + n)

/-- Two lowercase hex digits of a byte value. -/
def hexByte (n : Nat) : String :=
  String.mk [hexDigit (n / 16), hexDigit (n % 16)]

/-- Quoting of one character inside Go's `strconv.Quote` / `fmt %q`:
backslash-escape the quote and backslash, standard escapes for the common
control characters, `\xHH` for the remaining ASCII control characters.
Non-ASCII printable runes pass through; the `\u` escaping Go applies to
non-printable non-ASCII runes is not modelled (no claim depends on it). -/
def goQuoteChar (c : Char) : String :=
  if c = Char.ofNat 34 then "\\\""
  else if c = '\\' then "\\\\"
  else if c = Char.ofNat 7 then "\\a"
  else if c = Char.ofNat 8 then "\\b"
  else if c = Char.ofNat 12 then "\\f"
  else if c = Char.ofNat 10 then "\\n"
  else if c = Char.ofNat 13 then "\\r"
  else if c = Char.ofNat 9 then "\\t"
  else if c = Char.ofNat 11 then "\\v"
  else if c.toNat < 32 ∨ c.toNat = 127 then "\\x" ++ hexByte c.toNat
  else String.mk [c]

/-- Go `strconv.Quote` (as used by `fmt %q` on a string). -/
def goQuote (s : String) : String :=
  "\"" ++ String.join (s.data.map goQuoteChar) ++ "\""

/-- A Go `float64` as far as this development needs it: the special values,
and finite values carried as the exact rational the literal denotes.
The rounding of that rational to binary64 is not modelled; the theorems
below depend only on parse success/failure and on pass-through of the
parsed value, never on the rounded bits. -/
inductive GoFloat where
  | finite (q : ℚ) : GoFloat
  | inf (neg : Bool) : GoFloat
  | nan : GoFloat
deriving DecidableEq

/-- Case-insensitive common prefix length of two character lists
(Go `commonPrefixLengthIgnoreCase` restricted to ASCII). -/
def commonPrefixLenIC : List Char → List Char → Nat
  | c :: cs, d :: ds => if lowerC c = lowerC d then 1 + commonPrefixLenIC cs ds else 0
  | _, _ => 0

/-- Go `strconv`'s `special`: recognises a leading (optionally signed)
`inf` / `infinity` and an (unsigned) `nan`, case-insensitively, returning
the value and the number of characters consumed. Exactly `inf` (3) and
`infinity` (8) are accepted; a sign prevents the `nan` case (Go's
`fallthrough` goes to the infinity case only). -/
def goSpecial (l : List Char) : Option (GoFloat × Nat) :=
  match l with
  | [] => none
  | c :: rest =>
    if c = '+' ∨ c = '-' then
      let n := commonPrefixLenIC rest "infinity".data
      if n = 8 then some (.inf (c = '-'), 9)
      else if n = 3 then some (.inf (c = '-'), 4)
      else none
    else if lowerC c = 'i' then
      let n := commonPrefixLenIC l "infinity".data
      if n = 8 then some (.inf false, 8)
      else if n = 3 then some (.inf false, 3)
      else none
    else if lowerC c = 'n' then
      if commonPrefixLenIC l "nan".data = 3 then some (.nan, 3) else none
    else none

/-- State of Go `readFloat`'s mantissa loop: accumulated digits as a
natural, whether a digit was seen, whether the dot was seen, and the
count of digits after the dot. -/
structure MantState where
  mant : Nat
  frac : Nat
  sawdot : Bool
  sawdig : Bool
deriving Repr

/-- Go `readFloat`'s mantissa loop: consumes digits of the given base,
skips underscores (their placement is checked separately, as in Go),
accepts one dot, and stops at the first other character (a second dot
included). -/
def mantLoop (base : Nat) (isDig : Char → Bool) (digVal : Char → Nat) :
    List Char → MantState → MantState × List Char
  | [], st => (st, [])
  | c :: rest, st =>
    if c = '_' then mantLoop base isDig digVal rest st
    else if c = '.' then
      if st.sawdot then (st, c :: rest)
      else mantLoop base isDig digVal rest { st with sawdot := true }
    else if isDig c then
      mantLoop base isDig digVal rest
        { st with mant := st.mant * base + digVal c, sawdig := true,
                  frac := if st.sawdot then st.frac + 1 else st.frac }
    else (st, c :: rest)

/-- Decimal digit test. -/
def isDec (c : Char) : Bool := '0' ≤ c ∧ c ≤ '9'

/-- Hexadecimal digit test. -/
def isHex (c : Char) : Bool := isDec c ∨ ('a' ≤ lowerC c ∧ lowerC c ≤ 'f')

/-- Decimal digit value. -/
def decVal (c : Char) : Nat := c.toNat - 48

/-- Hexadecimal digit value. -/
def hexVal (c : Char) : Nat := if isDec c then c.toNat - 48 else (lowerC c).toNat - 87

/-- Go `readFloat`'s exponent digit loop: consumes digits and underscores,
capping the accumulated exponent at Go's bound (`e < 10000` guard, which
only bounds the magnitude once the exponent is already out of range). -/
def expDigits : List Char → Nat → Nat × List Char
  | [], e => (e, [])
  | c :: rest, e =>
    if c = '_' then expDigits rest e
    else if isDec c then expDigits rest (if e < 10000 then e * 10 + decVal c else e)
    else (e, c :: rest)

/-- The exponent part after the `e`/`p` marker: optional sign, then at
least one digit (an underscore may not come first, as in Go), then the
digit loop. Returns the signed exponent and the rest. -/
def readExp (l : List Char) : Option (Int × List Char) :=
  let (esign, l1) : Int × List Char :=
    match l with
    | c :: cs => if c = '+' then (1, cs) else if c = '-' then (-1, cs) else (1, l)
    | [] => (1, l)
  match l1 with
  | c :: _ =>
    if isDec c then
      let (e, rest) := expDigits l1 0
      some (esign * (e : Int), rest)
    else none
  | [] => none

/-- Go `underscoreOK`: underscores must separate digits (a base prefix
counts as a digit). Implemented as the same one-pass state machine. -/
def uOKLoop (hex : Bool) : List Char → Char → Bool
  | [], saw => saw ≠ '_'
  | c :: rest, saw =>
    if isDec c ∨ (hex ∧ 'a' ≤ lowerC c ∧ lowerC c ≤ 'f') then uOKLoop hex rest '0'
    else if c = '_' then
      if saw ≠ '0' then false else uOKLoop hex rest '_'
    else if saw = '_' then false
    else uOKLoop hex rest '!'

/-- Go `underscoreOK` on a whole literal: skip a sign, recognise a base
prefix, then run the separator state machine. -/
def underscoreOKL (l : List Char) : Bool :=
  let l1 := match l with
    | c :: cs => if c = '-' ∨ c = '+' then cs else l
    | [] => l
  match l1 with
  | '0' :: b :: rest =>
    if lowerC b = 'b' ∨ lowerC b = 'o' ∨ lowerC b = 'x' then
      uOKLoop (lowerC b = 'x') rest '0'
    else uOKLoop false l1 '^'
  | _ => uOKLoop false l1 '^'

/-- Go `readFloat` on the full literal (`ParseFloat` demands that the
whole input be consumed, so the maximal-prefix behaviour of `readFloat`
collapses to full-string parsing): optional sign, decimal or `0x` hex
mantissa with optional dot, then for decimal an optional `e` exponent and
for hex a mandatory `p` exponent; underscore placement checked as in Go.
Returns the exact rational value. -/
def goReadFloat (l : List Char) : Option ℚ :=
  let (neg, l1) : Bool × List Char :=
    match l with
    | c :: cs => if c = '+' then (false, cs) else if c = '-' then (true, cs) else (false, l)
    | [] => (false, l)
  let (isHexLit, l2) : Bool × List Char :=
    match l1 with
    | '0' :: b :: rest => if lowerC b = 'x' then (true, rest) else (false, l1)
    | _ => (false, l1)
  let q? : Option ℚ :=
    if isHexLit then
      let (st, l3) := mantLoop 16 isHex hexVal l2 ⟨0, 0, false, false⟩
      if !st.sawdig then none
      else
        match l3 with
        | p :: l4 =>
          if lowerC p = 'p' then
            match readExp l4 with
            | some (e, []) =>
              some ((st.mant : ℚ) / (16 : ℚ) ^ st.frac *
                (if 0 ≤ e then (2 : ℚ) ^ e.toNat else 1 / (2 : ℚ) ^ (-e).toNat))
            | _ => none
          else none
        | [] => none
    else
      let (st, l3) := mantLoop 10 isDec decVal l2 ⟨0, 0, false, false⟩
      if !st.sawdig then none
      else
        let base : ℚ := (st.mant : ℚ) / (10 : ℚ) ^ st.frac
        match l3 with
        | [] => some base
        | c :: l4 =>
          if lowerC c = 'e' then
            match readExp l4 with
            | some (e, []) =>
              some (base * (if 0 ≤ e then (10 : ℚ) ^ e.toNat else 1 / (10 : ℚ) ^ (-e).toNat))
            | _ => none
          else none
  match q? with
  | none => none
  | some q =>
    if l.contains '_' ∧ ¬underscoreOKL l then none
    else some (if neg then -q else q)

/-- The overflow threshold of binary64: an exact value with magnitude at
or above `2 ^ 1024 - 2 ^ 970` rounds to infinity, which Go reports as a
range error. -/
def f64OverflowBound : ℚ := (2 : ℚ) ^ 1024 - (2 : ℚ) ^ 970

/-- The underflow threshold of binary64: a nonzero exact value with
magnitude at or below `2 ^ (-1075)` rounds to zero, which Go reports as a
range error (the behaviour exactly at the tie is approximated). -/
def f64UnderflowBound : ℚ := 1 / (2 : ℚ) ^ 1075

/-- `strconv.ParseFloat(s, 64)`: the special literals, else the decimal /
hex grammar of `readFloat`, with full consumption required; out-of-range
finite values give range errors. -/
def goParseFloat (s : String) : Except GoErr GoFloat :=
  match goSpecial s.data with
  | some (f, n) =>
    if n = s.data.length then .ok f else .error (.num "ParseFloat" s .errSyn)
  | none =>
    match goReadFloat s.data with
    | none => .error (.num "ParseFloat" s .errSyn)
    | some q =>
      if f64OverflowBound ≤ |q| then .error (.num "ParseFloat" s .errRange)
      else if q ≠ 0 ∧ |q| ≤ f64UnderflowBound then .error (.num "ParseFloat" s .errRange)
      else .ok (.finite q)


/-- `2 ^ 63 - 1`, Go's `math.MaxInt64`, the bound of `time.Duration`. -/
def maxI64 : Nat := 2 ^ 63 - 1

/-- `time.ParseDuration`'s `leadingInt`: consume leading decimal digits
into a non-negative 64-bit value; `none` on overflow (Go's
`errLeadingInt`). -/
def leadingIntLoop : List Char → Nat → Option (Nat × List Char)
  | [], v => some (v, [])
  | c :: rest, v =>
    if isDec c then
      if v > maxI64 / 10 then none
      else
        let v1 := v * 10 + decVal c
        if v1 > maxI64 then none else leadingIntLoop rest v1
    else some (v, c :: rest)

/-- `time.ParseDuration`'s `leadingFraction`: consume digits after the
dot, stopping the accumulation (but not the consumption) once the value
would overflow; returns the digits' value and the scale `10 ^ digits`
(Go keeps the scale in a `float64`; here it is exact). -/
def leadingFracLoop : List Char → Nat → ℚ → Bool → Nat × ℚ × List Char
  | [], x, scale, _ => (x, scale, [])
  | c :: rest, x, scale, ovf =>
    if isDec c then
      if ovf then leadingFracLoop rest x scale ovf
      else if x > maxI64 / 10 then leadingFracLoop rest x scale true
      else
        let y := x * 10 + decVal c
        if y > maxI64 then leadingFracLoop rest x scale true
        else leadingFracLoop rest y (scale * 10) false
    else (x, scale, c :: rest)

/-- `time.ParseDuration`'s unit table (nanoseconds per unit). -/
def unitMapLookup (u : String) : Option Nat :=
  if u = "ns" then some 1
  else if u = "us" ∨ u = "µs" ∨ u = "μs" then some 1000
  else if u = "ms" then some 1000000
  else if u = "s" then some 1000000000
  else if u = "m" then some 60000000000
  else if u = "h" then some 3600000000000
  else none

/-- Length of the unit run: characters up to the next digit or dot. -/
def unitLen : List Char → Nat
  | [] => 0
  | c :: rest => if c = '.' ∨ isDec c then 0 else 1 + unitLen rest

/-- The `invalid duration` error of `time.ParseDuration` (message text as
in current Go, which quotes the literal). -/
def invalidDur (orig : String) : GoErr :=
  .dur ("time: invalid duration " ++ goQuote orig)

/-- The term loop of `time.ParseDuration`: each iteration reads one
`number[.fraction]unit` term and adds its nanoseconds, with Go's
overflow checks. The fractional contribution is Go's
`int64(float64(f) * (float64(unit) / scale))`, embedded as the exact
rational truncated toward zero (the float64 rounding inside that product
is not modelled). The loop consumes at least one character per
iteration, so fuel `≥ length` never runs out. -/
def parseDurTerms (orig : String) : Nat → List Char → Nat → Except GoErr Nat
  | 0, _, _ => .error (invalidDur orig)
  | _, [], d => .ok d
  | fuel + 1, c :: s, d =>
    if ¬(c = '.' ∨ isDec c) then .error (invalidDur orig)
    else
      match leadingIntLoop (c :: s) 0 with
      | none => .error (invalidDur orig)
      | some (v, s1) =>
        let pre := s1.length ≠ (c :: s).length
        let (f, scale, s2, post) : Nat × ℚ × List Char × Bool :=
          match s1 with
          | '.' :: s1' =>
            let (f, scale, s2) := leadingFracLoop s1' 0 1 false
            (f, scale, s2, s2.length ≠ s1'.length)
          | _ => (0, 1, s1, false)
        if ¬pre ∧ ¬post then .error (invalidDur orig)
        else
          let i := unitLen s2
          if i = 0 then .error (.dur ("time: missing unit in duration " ++ goQuote orig))
          else
            let u := String.mk (s2.take i)
            let s3 := s2.drop i
            match unitMapLookup u with
            | none =>
              .error (.dur ("time: unknown unit " ++ goQuote u ++ " in duration " ++ goQuote orig))
            | some unit =>
              if v > maxI64 / unit then .error (invalidDur orig)
              else
                let v1 := v * unit
                let v2 :=
                  if f > 0 then v1 + (((f : ℚ) * ((unit : ℚ) / scale)).floor).toNat
                  else v1
                if v2 > maxI64 then .error (invalidDur orig)
                else
                  let d1 := d + v2
                  if d1 > maxI64 then .error (invalidDur orig)
                  else parseDurTerms orig fuel s3 d1

/-- `time.ParseDuration`: optional sign, the special literal `0`, then
the term loop; the result is int64 nanoseconds. -/
def goParseDuration (s : String) : Except GoErr Int :=
  let (neg, l) : Bool × List Char :=
    match s.data with
    | c :: cs => if c = '-' then (true, cs) else if c = '+' then (false, cs) else (false, s.data)
    | [] => (false, [])
  if String.mk l = "0" then .ok 0
  else if l.isEmpty then .error (invalidDur s)
  else
    match parseDurTerms s (l.length + 1) l 0 with
    | .error e => .error e
    | .ok d => .ok (if neg then -(d : Int) else (d : Int))

/-- `strconv.FormatBool`. -/
def goFormatBool (b : Bool) : String := if b then "true" else "false"

/-- `strconv.FormatUint(u, 10)`. -/
def goFormatUint (u : Nat) : String := Nat.repr u

/-- `strconv.FormatInt(i, 10)`. -/
def goFormatInt (i : Int) : String :=
  if i < 0 then "-" ++ Nat.repr i.natAbs else Nat.repr i.natAbs

/-- `time.Duration`'s `fmtFrac`: the `prec` least-significant digits of
`u` as a fractional part with trailing zeros (and an all-zero fraction's
dot) omitted; returns the fraction text and `u` shifted right by `prec`
digits. -/
def fmtFracAux : Nat → Nat → Bool → String → String × Nat
  | 0, u, print, acc => ((if print then "." ++ acc else ""), u)
  | n + 1, u, print, acc =>
    let digit := u % 10
    let print1 := print || digit != 0
    let acc1 := if print1 then String.mk [Char.ofNat (48 + digit)] ++ acc else acc
    fmtFracAux n (u / 10) print1 acc1

/-- See `fmtFracAux`. -/
def fmtFrac (u prec : Nat) : String × Nat := fmtFracAux prec u false ""

/-- `time.Duration.String()`: `0s`; `ns`/`µs`/`ms` with fraction below one
second; otherwise seconds with up-to-nanosecond fraction, then minutes
and hours; a leading `-` for negative durations. -/
def durString (d : Int) : String :=
  let u := d.natAbs
  let core :=
    if u < 1000000000 then
      if u = 0 then "0s"
      else if u < 1000 then goFormatUint u ++ "ns"
      else if u < 1000000 then
        let (fr, v) := fmtFrac u 3
        goFormatUint v ++ fr ++ "µs"
      else
        let (fr, v) := fmtFrac u 6
        goFormatUint v ++ fr ++ "ms"
    else
      let (fr, v) := fmtFrac u 9
      let sPart := goFormatUint (v % 60) ++ fr ++ "s"
      let v1 := v / 60
      if v1 = 0 then sPart
      else
        let mPart := goFormatUint (v1 % 60) ++ "m" ++ sPart
        let v2 := v1 / 60
        if v2 = 0 then mPart else goFormatUint v2 ++ "h" ++ mPart
  if d < 0 then "-" ++ core else core

/-- Remove trailing `0` characters of a digit string. -/
def stripTrailingZeros (s : String) : String :=
  String.mk (((s.data.reverse).dropWhile (fun c => c = '0')).reverse)

/-- Factor `p` out of `n` (fuel-based; fuel `n` always suffices):
returns `(k, m)` with `n = p ^ k * m` and `p` not dividing `m`. -/
def factorOutAux (p : Nat) : Nat → Nat → Nat × Nat
  | 0, n => (0, n)
  | fuel + 1, n =>
    if n ≠ 0 ∧ n % p = 0 then
      let (k, m) := factorOutAux p fuel (n / p)
      (k + 1, m)
    else (0, n)

/-- See `factorOutAux`. -/
def factorOut (p n : Nat) : Nat × Nat := factorOutAux p n n

/-- Zero-pad / left-pad helpers for the float formatter. -/
def zeros (n : Nat) : String := String.mk (List.replicate n '0')

/-- `strconv.FormatFloat(f, 'g', -1, 64)` on this development's exact
float model: specials as in Go; a finite value's shortest decimal digit
string with Go's fixed/scientific choice (scientific when the decimal
exponent is below -4 or at least 6, Go's `shortest` rule) and a
two-digit `e±dd` exponent. Only values whose denominator is of the form
`2 ^ a * 5 ^ b` (every value a Go literal denotes) format this way; other
rationals fall back to a fraction rendering. Because the model keeps the
exact literal value rather than its binary64 rounding, digit strings can
differ from Go's on literals that are not exactly representable; no
theorem below depends on the digits, only on the string being stored and
echoed verbatim. -/
def goFormatFloat : GoFloat → String
  | .nan => "NaN"
  | .inf true => "-Inf"
  | .inf false => "+Inf"
  | .finite q =>
    if q = 0 then "0"
    else
      let sign := if q < 0 then "-" else ""
      let n := q.num.natAbs
      let den := q.den
      let (a, r2) := factorOut 2 den
      let (b, r5) := factorOut 5 r2
      if r5 ≠ 1 then sign ++ Nat.repr n ++ "/" ++ Nat.repr den
      else
        let k := max a b
        let m := n * 2 ^ (k - a) * 5 ^ (k - b)
        let ds := Nat.repr m
        let e10 : Int := (ds.length : Int) - 1 - (k : Int)
        let trimmed := stripTrailingZeros ds
        if e10 < -4 ∨ 6 ≤ e10 then
          let head := String.mk (trimmed.data.take 1)
          let tail := String.mk (trimmed.data.drop 1)
          let mant := if tail = "" then head else head ++ "." ++ tail
          let eAbs := e10.natAbs
          let eTxt := if eAbs < 10 then "0" ++ Nat.repr eAbs else Nat.repr eAbs
          sign ++ mant ++ "e" ++ (if e10 < 0 then "-" else "+") ++ eTxt
        else if 0 ≤ e10 then
          let ilen := e10.toNat + 1
          let intPart := String.mk (trimmed.data.take ilen) ++ zeros (ilen - trimmed.length)
          let fracPart := String.mk (trimmed.data.drop ilen)
          sign ++ (if fracPart = "" then intPart else intPart ++ "." ++ fracPart)
        else
          sign ++ "0." ++ zeros (e10.natAbs - 1) ++ trimmed

/-!
## The adapters' `Set` methods

Each Go adapter's `Set(val string) error` mutates the bound cell through
a pointer; here it is state-passing: the cell before, the token, and the
pair (cell after, returned error). The ND adapters' cell is the inner
pointer (`Option τ`); the sections on caller-supplied outer pointers
model the outer `**τ` level separately below.
-/

/-- `ndsf.Set`: `*s.sv = &val; return nil` — always succeeds, stores the
token itself. -/
def ndsfSet (_sv : Option String) (val : String) : Option String × Option GoErr :=
  (some val, none)

/-- `ndbf.Set`: `strconv.ParseBool`, return the error unchanged on
failure, else point the cell at the parsed value. -/
def ndbfSet (bv : Option Bool) (val : String) : Option Bool × Option GoErr :=
  match goParseBool val with
  | .error err => (bv, some err)
  | .ok pb => (some pb, none)

/-- `ndif.Set`: `strconv.Atoi` at the platform int width `w`. -/
def ndifSet (w : Nat) (iv : Option Int) (val : String) : Option Int × Option GoErr :=
  match goAtoi w val with
  | .error err => (iv, some err)
  | .ok pi => (some pi, none)

/-- `ndi64f.Set`: `strconv.ParseInt(val, 10, 64)`. -/
def ndi64fSet (iv : Option Int) (val : String) : Option Int × Option GoErr :=
  match goParseInt64 val with
  | .error err => (iv, some err)
  | .ok pi => (some pi, none)

/-- `nduif.Set`: `strconv.ParseUint(val, 10, 64)`, then the unchecked
narrowing `pui2 := uint(pui)` to the platform uint width `w`, i.e.
reduction modulo `2 ^ w`. -/
def nduifSet (w : Nat) (uiv : Option Nat) (val : String) : Option Nat × Option GoErr :=
  match goParseUint val with
  | .error err => (uiv, some err)
  | .ok pui => (some (pui % 2 ^ w), none)

/-- `ndui64f.Set`: `strconv.ParseUint(val, 10, 64)`. -/
def ndui64fSet (uiv : Option Nat) (val : String) : Option Nat × Option GoErr :=
  match goParseUint val with
  | .error err => (uiv, some err)
  | .ok pui => (some pui, none)

/-- `ndff.Set`: `strconv.ParseFloat(val, 64)`. -/
def ndffSet (fv : Option GoFloat) (val : String) : Option GoFloat × Option GoErr :=
  match goParseFloat val with
  | .error err => (fv, some err)
  | .ok pf => (some pf, none)

/-- `nddf.Set`: `time.ParseDuration(val)`. -/
def nddfSet (dv : Option Int) (val : String) : Option Int × Option GoErr :=
  match goParseDuration val with
  | .error err => (dv, some err)
  | .ok pd => (some pd, none)

/-- `zvsf.Set`: `*s.sv = val; return nil`. -/
def zvsfSet (_sv : String) (val : String) : String × Option GoErr :=
  (val, none)

/-- `zvbf.Set`. -/
def zvbfSet (bv : Bool) (val : String) : Bool × Option GoErr :=
  match goParseBool val with
  | .error err => (bv, some err)
  | .ok pb => (pb, none)

/-- `zvif.Set` (`strconv.Atoi` at platform width `w`). -/
def zvifSet (w : Nat) (iv : Int) (val : String) : Int × Option GoErr :=
  match goAtoi w val with
  | .error err => (iv, some err)
  | .ok pi => (pi, none)

/-- `zvi64f.Set`. -/
def zvi64fSet (iv : Int) (val : String) : Int × Option GoErr :=
  match goParseInt64 val with
  | .error err => (iv, some err)
  | .ok pi => (pi, none)

/-- `zvuif.Set`: 64-bit parse, then `pui2 := uint(pui)` narrowing. -/
def zvuifSet (w : Nat) (uiv : Nat) (val : String) : Nat × Option GoErr :=
  match goParseUint val with
  | .error err => (uiv, some err)
  | .ok pui => (pui % 2 ^ w, none)

/-- `zvui64f.Set`. -/
def zvui64fSet (uiv : Nat) (val : String) : Nat × Option GoErr :=
  match goParseUint val with
  | .error err => (uiv, some err)
  | .ok pui => (pui, none)

/-- `zvff.Set`. -/
def zvffSet (fv : GoFloat) (val : String) : GoFloat × Option GoErr :=
  match goParseFloat val with
  | .error err => (fv, some err)
  | .ok pf => (pf, none)

/-- `zvdff.Set`. -/
def zvdffSet (dv : Int) (val : String) : Int × Option GoErr :=
  match goParseDuration val with
  | .error err => (dv, some err)
  | .ok pd => (pd, none)

/-!
## The adapters as registry values

The external flag registry holds each adapter behind the `flag.Value`
interface; what it can observe of an adapter is its dynamic type, its
stored example text (via `String()`), and whether the dynamic type has
an `IsBoolFlag` method. `NDValue` is that view: one constructor per
adapter struct, carrying the `example` field. -/
inductive NDValue where
  | ndsfV (e : String) : NDValue
  | ndbfV (e : String) : NDValue
  | ndifV (e : String) : NDValue
  | ndi64fV (e : String) : NDValue
  | nduifV (e : String) : NDValue
  | ndui64fV (e : String) : NDValue
  | ndffV (e : String) : NDValue
  | nddfV (e : String) : NDValue
  | zvsfV (e : String) : NDValue
  | zvbfV (e : String) : NDValue
  | zvifV (e : String) : NDValue
  | zvi64fV (e : String) : NDValue
  | zvuifV (e : String) : NDValue
  | zvui64fV (e : String) : NDValue
  | zvffV (e : String) : NDValue
  | zvdffV (e : String) : NDValue
deriving DecidableEq, Repr

/-- The stored `example` field of any adapter. -/
def NDValue.exampleStr : NDValue → String
  | .ndsfV e | .ndbfV e | .ndifV e | .ndi64fV e
  | .nduifV e | .ndui64fV e | .ndffV e | .nddfV e
  | .zvsfV e | .zvbfV e | .zvifV e | .zvi64fV e
  | .zvuifV e | .zvui64fV e | .zvffV e | .zvdffV e => e

/-- Every adapter's `String()` method: `return x.example`. -/
def NDValue.stringRep (v : NDValue) : String := v.exampleStr

/-- The registry's `boolFlag` capability probe (a Go type assertion):
`ndbf` and `zvbf` are the only adapter types with an `IsBoolFlag`
method, and both return `true`; `none` means the dynamic type does not
provide the method. -/
def NDValue.isBoolFlagM : NDValue → Option Bool
  | .ndbfV _ => some true
  | .zvbfV _ => some true
  | _ => none

/-- The `fl.Value.(*ndsf)` type assertion in `printDefaults`. -/
def NDValue.isNdsf : NDValue → Bool
  | .ndsfV _ => true
  | _ => false

/-!
## Cells

One unified state type covering every adapter's bound cell, for the
claims that quantify over all supported types. ND cells are the inner
pointer (`none` = flag never supplied); ZV cells are plain values. -/
inductive Cell where
  | ndStr (sv : Option String) : Cell
  | ndBool (bv : Option Bool) : Cell
  | ndInt (iv : Option Int) : Cell
  | ndInt64 (iv : Option Int) : Cell
  | ndUint (uiv : Option Nat) : Cell
  | ndUint64 (uiv : Option Nat) : Cell
  | ndFloat (fv : Option GoFloat) : Cell
  | ndDur (dv : Option Int) : Cell
  | zvStr (sv : String) : Cell
  | zvBool (bv : Bool) : Cell
  | zvInt (iv : Int) : Cell
  | zvInt64 (iv : Int) : Cell
  | zvUint (uiv : Nat) : Cell
  | zvUint64 (uiv : Nat) : Cell
  | zvFloat (fv : GoFloat) : Cell
  | zvDur (dv : Int) : Cell
deriving DecidableEq

/-- Dispatch of `Set` over the unified cell type (`w` is the platform
int/uint width). -/
def cellSet (w : Nat) : Cell → String → Cell × Option GoErr
  | .ndStr sv, val => let (c, e) := ndsfSet sv val; (.ndStr c, e)
  | .ndBool bv, val => let (c, e) := ndbfSet bv val; (.ndBool c, e)
  | .ndInt iv, val => let (c, e) := ndifSet w iv val; (.ndInt c, e)
  | .ndInt64 iv, val => let (c, e) := ndi64fSet iv val; (.ndInt64 c, e)
  | .ndUint uiv, val => let (c, e) := nduifSet w uiv val; (.ndUint c, e)
  | .ndUint64 uiv, val => let (c, e) := ndui64fSet uiv val; (.ndUint64 c, e)
  | .ndFloat fv, val => let (c, e) := ndffSet fv val; (.ndFloat c, e)
  | .ndDur dv, val => let (c, e) := nddfSet dv val; (.ndDur c, e)
  | .zvStr sv, val => let (c, e) := zvsfSet sv val; (.zvStr c, e)
  | .zvBool bv, val => let (c, e) := zvbfSet bv val; (.zvBool c, e)
  | .zvInt iv, val => let (c, e) := zvifSet w iv val; (.zvInt c, e)
  | .zvInt64 iv, val => let (c, e) := zvi64fSet iv val; (.zvInt64 c, e)
  | .zvUint uiv, val => let (c, e) := zvuifSet w uiv val; (.zvUint c, e)
  | .zvUint64 uiv, val => let (c, e) := zvui64fSet uiv val; (.zvUint64 c, e)
  | .zvFloat fv, val => let (c, e) := zvffSet fv val; (.zvFloat c, e)
  | .zvDur dv, val => let (c, e) := zvdffSet dv val; (.zvDur c, e)

/-- The three operations of the adapter capability set. `String()` reads
only the stored example text, `Get()` returns the current cell without
modifying it; only `Set` can change the cell. -/
inductive AdapterOp where
  | setOp (val : String) : AdapterOp
  | stringOp : AdapterOp
  | getOp : AdapterOp

/-- Effect of one adapter operation on the bound cell. -/
def cellApply (w : Nat) (c : Cell) : AdapterOp → Cell × Option GoErr
  | .setOp val => cellSet w c val
  | .stringOp => (c, none)
  | .getOp => (c, none)

/-- Whether a cell belongs to an ND (optional-indirection) adapter. -/
def Cell.isND : Cell → Bool
  | .ndStr _ | .ndBool _ | .ndInt _ | .ndInt64 _
  | .ndUint _ | .ndUint64 _ | .ndFloat _ | .ndDur _ => true
  | _ => false

/-- For an ND cell, whether the inner pointer is present (`some true`),
absent (`some false`); `none` for ZV cells, which carry no absence
signal. -/
def Cell.ndPresent : Cell → Option Bool
  | .ndStr sv => some sv.isSome
  | .ndBool bv => some bv.isSome
  | .ndInt iv => some iv.isSome
  | .ndInt64 iv => some iv.isSome
  | .ndUint uiv => some uiv.isSome
  | .ndUint64 uiv => some uiv.isSome
  | .ndFloat fv => some fv.isSome
  | .ndDur dv => some dv.isSome
  | _ => none

/-!
## ND adapters at the outer-pointer level

The doc comment of the package demands that the `ND*Var` methods never
receive a nil `**T`. To analyse what happens when that precondition is
violated, the outer pointer is made explicit here: `none` is a nil outer
pointer, `some inner` a valid one referencing the inner pointer. A `Set`
that must dereference a nil outer pointer faults, modelled as the whole
call returning `none`; the parse (which in Go happens before the store)
still returns its error normally. -/

/-- `ndsf.Set` with the outer pointer explicit: the store `*s.sv = &val`
happens unconditionally, so a nil outer pointer always faults. -/
def ndsfSetPtr (sv : Option (Option String)) (val : String) :
    Option (Option (Option String) × Option GoErr) :=
  match sv with
  | none => none
  | some _ => some (some (some val), none)

/-- `ndbf.Set` with the outer pointer explicit: a failed parse returns
before any dereference. -/
def ndbfSetPtr (bv : Option (Option Bool)) (val : String) :
    Option (Option (Option Bool) × Option GoErr) :=
  match goParseBool val with
  | .error err => some (bv, some err)
  | .ok pb =>
    match bv with
    | none => none
    | some _ => some (some (some pb), none)

/-- `ndif.Set` with the outer pointer explicit. -/
def ndifSetPtr (w : Nat) (iv : Option (Option Int)) (val : String) :
    Option (Option (Option Int) × Option GoErr) :=
  match goAtoi w val with
  | .error err => some (iv, some err)
  | .ok pi =>
    match iv with
    | none => none
    | some _ => some (some (some pi), none)

/-- `ndi64f.Set` with the outer pointer explicit. -/
def ndi64fSetPtr (iv : Option (Option Int)) (val : String) :
    Option (Option (Option Int) × Option GoErr) :=
  match goParseInt64 val with
  | .error err => some (iv, some err)
  | .ok pi =>
    match iv with
    | none => none
    | some _ => some (some (some pi), none)

/-- `nduif.Set` with the outer pointer explicit. -/
def nduifSetPtr (w : Nat) (uiv : Option (Option Nat)) (val : String) :
    Option (Option (Option Nat) × Option GoErr) :=
  match goParseUint val with
  | .error err => some (uiv, some err)
  | .ok pui =>
    match uiv with
    | none => none
    | some _ => some (some (some (pui % 2 ^ w)), none)

/-- `ndui64f.Set` with the outer pointer explicit. -/
def ndui64fSetPtr (uiv : Option (Option Nat)) (val : String) :
    Option (Option (Option Nat) × Option GoErr) :=
  match goParseUint val with
  | .error err => some (uiv, some err)
  | .ok pui =>
    match uiv with
    | none => none
    | some _ => some (some (some pui), none)

/-- `ndff.Set` with the outer pointer explicit. -/
def ndffSetPtr (fv : Option (Option GoFloat)) (val : String) :
    Option (Option (Option GoFloat) × Option GoErr) :=
  match goParseFloat val with
  | .error err => some (fv, some err)
  | .ok pf =>
    match fv with
    | none => none
    | some _ => some (some (some pf), none)

/-- `nddf.Set` with the outer pointer explicit. -/
def nddfSetPtr (dv : Option (Option Int)) (val : String) :
    Option (Option (Option Int) × Option GoErr) :=
  match goParseDuration val with
  | .error err => some (dv, some err)
  | .ok pd =>
    match dv with
    | none => none
    | some _ => some (some (some pd), none)

/-- Unified outer-pointer state over the eight ND adapter types. -/
inductive PtrCell where
  | pStr (sv : Option (Option String)) : PtrCell
  | pBool (bv : Option (Option Bool)) : PtrCell
  | pInt (iv : Option (Option Int)) : PtrCell
  | pInt64 (iv : Option (Option Int)) : PtrCell
  | pUint (uiv : Option (Option Nat)) : PtrCell
  | pUint64 (uiv : Option (Option Nat)) : PtrCell
  | pFloat (fv : Option (Option GoFloat)) : PtrCell
  | pDur (dv : Option (Option Int)) : PtrCell
deriving DecidableEq

/-- Dispatch of the outer-pointer-level `Set` (`none` = fault). -/
def ptrCellSet (w : Nat) : PtrCell → String → Option (PtrCell × Option GoErr)
  | .pStr sv, val => (ndsfSetPtr sv val).map fun (c, e) => (.pStr c, e)
  | .pBool bv, val => (ndbfSetPtr bv val).map fun (c, e) => (.pBool c, e)
  | .pInt iv, val => (ndifSetPtr w iv val).map fun (c, e) => (.pInt c, e)
  | .pInt64 iv, val => (ndi64fSetPtr iv val).map fun (c, e) => (.pInt64 c, e)
  | .pUint uiv, val => (nduifSetPtr w uiv val).map fun (c, e) => (.pUint c, e)
  | .pUint64 uiv, val => (ndui64fSetPtr uiv val).map fun (c, e) => (.pUint64 c, e)
  | .pFloat fv, val => (ndffSetPtr fv val).map fun (c, e) => (.pFloat c, e)
  | .pDur dv, val => (nddfSetPtr dv val).map fun (c, e) => (.pDur c, e)

/-- Whether the outer pointer is non-nil. -/
def PtrCell.outerPresent : PtrCell → Bool
  | .pStr sv => sv.isSome
  | .pBool bv => bv.isSome
  | .pInt iv => iv.isSome
  | .pInt64 iv => iv.isSome
  | .pUint uiv => uiv.isSome
  | .pUint64 uiv => uiv.isSome
  | .pFloat fv => fv.isSome
  | .pDur dv => dv.isSome

/-- Whether the token parses in the grammar of the adapter the pointer
belongs to (the string adapter parses everything). -/
def ptrParseOk (w : Nat) : PtrCell → String → Bool
  | .pStr _, _ => true
  | .pBool _, val => match goParseBool val with | .ok _ => true | .error _ => false
  | .pInt _, val => match goAtoi w val with | .ok _ => true | .error _ => false
  | .pInt64 _, val => match goParseInt64 val with | .ok _ => true | .error _ => false
  | .pUint _, val => match goParseUint val with | .ok _ => true | .error _ => false
  | .pUint64 _, val => match goParseUint val with | .ok _ => true | .error _ => false
  | .pFloat _, val => match goParseFloat val with | .ok _ => true | .error _ => false
  | .pDur _, val => match goParseDuration val with | .ok _ => true | .error _ => false

/-!
## The flag registry view and the flag-set facade

`flag.FlagSet.Var(value, name, usage)` records a `flag.Flag` whose
`DefValue` is `value.String()` captured at registration. The facade
(`NDFlagSet`) wraps the registry and overrides usage printing. -/

/-- A registered flag as the registry keeps it. -/
structure FlagEnt where
  name : String
  usage : String
  value : NDValue
  defValue : String
deriving DecidableEq, Repr

/-- `flag.FlagSet.Var`: build the registry entry, capturing
`DefValue = value.String()`. -/
def mkFlag (v : NDValue) (name usage : String) : FlagEnt :=
  { name := name, usage := usage, value := v, defValue := v.stringRep }

/-- Split a character list at the first backquote, if any. -/
def splitAtBackquote : List Char → Option (List Char × List Char)
  | [] => none
  | c :: rest =>
    if c = Char.ofNat 96 then some ([], rest)
    else (splitAtBackquote rest).map fun (a, b) => (c :: a, b)

/-- `flag.UnquoteUsage`: extract a back-quoted name from the usage text
(first pair of backquotes; a lone backquote is left alone); without one,
the name is empty for adapters with a true `IsBoolFlag` and the generic
`value` for every other adapter type of this package (none of them is
one of the registry's own value types). -/
def unquoteUsage (v : NDValue) (usage : String) : String × String :=
  let dflt : String × String :=
    (match v.isBoolFlagM with | some true => "" | _ => "value", usage)
  match splitAtBackquote usage.data with
  | some (before, rest1) =>
    match splitAtBackquote rest1 with
    | some (nm, after) => (String.mk nm, String.mk (before ++ nm ++ after))
    | none => dflt
  | none => dflt

/-- The per-flag line of `NDFlagSet.printDefaults`, up to the example
suffix: `  -name`, the value-type hint, the tab layout (the one-letter
special case), the usage text. Go measures `len(s)` in bytes; this model
measures characters, which agrees on ASCII flag names. -/
def linePre (fl : FlagEnt) : String :=
  let s0 := "  -" ++ fl.name
  let (nm, usage) := unquoteUsage fl.value fl.usage
  let s1 := if nm.length > 0 then s0 ++ " " ++ nm else s0
  let s2 := if s1.length ≤ 4 then s1 ++ "\t" else s1 ++ "\n    \t"
  s2 ++ usage

/-- The full per-flag line of `NDFlagSet.printDefaults`: the example
suffix uses `%q` (Go quoting) exactly when the dynamic value type is
`*ndsf`, and `%v` (the string verbatim) otherwise. -/
def lineOf (fl : FlagEnt) : String :=
  if fl.value.isNdsf then
    linePre fl ++ (" (example " ++ goQuote fl.defValue ++ ")")
  else
    linePre fl ++ (" (example " ++ fl.defValue ++ ")")

/-- The facade: the wrapped registry's flag list plus the display name
(the output sink carries no observable state here beyond the text
printed, which the functions below return). -/
structure NDFlagSet where
  name : String
  flags : List FlagEnt

/-- The registry's `sortFlags`: lexicographic by flag name. -/
def sortFlags (l : List FlagEnt) : List FlagEnt :=
  l.mergeSort fun a b => decide (a.name ≤ b.name)

/-- `NDFlagSet.printDefaults`: one line per registered flag, in the
registry's `VisitAll` order (sorted by name). -/
def ndfPrintDefaults (fs : NDFlagSet) : List String :=
  (sortFlags fs.flags).map lineOf

/-- `NDFlagSet.ndfUsage`: the header line, then the defaults. -/
def ndfUsage (fs : NDFlagSet) : List String :=
  (if fs.name = "" then "Usage:" else "Usage of " ++ fs.name ++ ":") :: ndfPrintDefaults fs

/-!
## Registration entry points

Each `ND*Var` / `ZV*Var` method builds the adapter with the formatted
example and hands it to `flag.Var`; it never reads or writes the
caller's cell, which is returned unchanged alongside the produced
registry entry. The allocate-and-return forms (`NDString`, `ZVBool`,
...) declare fresh zero storage (`var sv *string`, `var bv bool`) and
call the `Var` form on it. -/

/-- `NDFlagSet.NDStringVar`. -/
def NDStringVar (sv : Option String) (name e usage : String) : FlagEnt × Option String :=
  (mkFlag (.ndsfV e) name usage, sv)

/-- `NDFlagSet.NDString`: fresh `var sv *string` (nil), then `NDStringVar`. -/
def NDString (name e usage : String) : FlagEnt × Option String :=
  NDStringVar none name e usage

/-- `NDFlagSet.NDBoolVar`: example stored as `strconv.FormatBool(example)`. -/
def NDBoolVar (bv : Option Bool) (name : String) (e : Bool) (usage : String) :
    FlagEnt × Option Bool :=
  (mkFlag (.ndbfV (goFormatBool e)) name usage, bv)

/-- `NDFlagSet.NDBool`. -/
def NDBool (name : String) (e : Bool) (usage : String) : FlagEnt × Option Bool :=
  NDBoolVar none name e usage

/-- `NDFlagSet.NDIntVar`: example stored as `strconv.FormatInt(int64(example), 10)`. -/
def NDIntVar (iv : Option Int) (name : String) (e : Int) (usage : String) :
    FlagEnt × Option Int :=
  (mkFlag (.ndifV (goFormatInt e)) name usage, iv)

/-- `NDFlagSet.NDInt`. -/
def NDInt (name : String) (e : Int) (usage : String) : FlagEnt × Option Int :=
  NDIntVar none name e usage

/-- `NDFlagSet.NDInt64Var`. -/
def NDInt64Var (iv : Option Int) (name : String) (e : Int) (usage : String) :
    FlagEnt × Option Int :=
  (mkFlag (.ndi64fV (goFormatInt e)) name usage, iv)

/-- `NDFlagSet.NDInt64`. -/
def NDInt64 (name : String) (e : Int) (usage : String) : FlagEnt × Option Int :=
  NDInt64Var none name e usage

/-- `NDFlagSet.NDUintVar`: example stored as `strconv.FormatUint(uint64(example), 10)`. -/
def NDUintVar (uiv : Option Nat) (name : String) (e : Nat) (usage : String) :
    FlagEnt × Option Nat :=
  (mkFlag (.nduifV (goFormatUint e)) name usage, uiv)

/-- `NDFlagSet.NDUint`. -/
def NDUint (name : String) (e : Nat) (usage : String) : FlagEnt × Option Nat :=
  NDUintVar none name e usage

/-- `NDFlagSet.NDUint64Var`. -/
def NDUint64Var (uiv : Option Nat) (name : String) (e : Nat) (usage : String) :
    FlagEnt × Option Nat :=
  (mkFlag (.ndui64fV (goFormatUint e)) name usage, uiv)

/-- `NDFlagSet.NDUint64`. -/
def NDUint64 (name : String) (e : Nat) (usage : String) : FlagEnt × Option Nat :=
  NDUint64Var none name e usage

/-- `NDFlagSet.NDFloat64Var`: example stored as
`strconv.FormatFloat(example, 'g', -1, 64)`. -/
def NDFloat64Var (fv : Option GoFloat) (name : String) (e : GoFloat) (usage : String) :
    FlagEnt × Option GoFloat :=
  (mkFlag (.ndffV (goFormatFloat e)) name usage, fv)

/-- `NDFlagSet.NDFloat64`. -/
def NDFloat64 (name : String) (e : GoFloat) (usage : String) : FlagEnt × Option GoFloat :=
  NDFloat64Var none name e usage

/-- `NDFlagSet.NDDurationVar`: example stored as `example.String()`. -/
def NDDurationVar (dv : Option Int) (name : String) (e : Int) (usage : String) :
    FlagEnt × Option Int :=
  (mkFlag (.nddfV (durString e)) name usage, dv)

/-- `NDFlagSet.NDDuration`. -/
def NDDuration (name : String) (e : Int) (usage : String) : FlagEnt × Option Int :=
  NDDurationVar none name e usage

/-- `NDFlagSet.ZVStringVar`. -/
def ZVStringVar (sv : String) (name e usage : String) : FlagEnt × String :=
  (mkFlag (.zvsfV e) name usage, sv)

/-- `NDFlagSet.ZVString`: fresh `var sv string` (empty), then `ZVStringVar`. -/
def ZVString (name e usage : String) : FlagEnt × String :=
  ZVStringVar "" name e usage

/-- `NDFlagSet.ZVBoolVar`. -/
def ZVBoolVar (bv : Bool) (name : String) (e : Bool) (usage : String) : FlagEnt × Bool :=
  (mkFlag (.zvbfV (goFormatBool e)) name usage, bv)

/-- `NDFlagSet.ZVBool`. -/
def ZVBool (name : String) (e : Bool) (usage : String) : FlagEnt × Bool :=
  ZVBoolVar false name e usage

/-- `NDFlagSet.ZVIntVar`. -/
def ZVIntVar (iv : Int) (name : String) (e : Int) (usage : String) : FlagEnt × Int :=
  (mkFlag (.zvifV (goFormatInt e)) name usage, iv)

/-- `NDFlagSet.ZVInt`. -/
def ZVInt (name : String) (e : Int) (usage : String) : FlagEnt × Int :=
  ZVIntVar 0 name e usage

/-- `NDFlagSet.ZVInt64Var`. -/
def ZVInt64Var (iv : Int) (name : String) (e : Int) (usage : String) : FlagEnt × Int :=
  (mkFlag (.zvi64fV (goFormatInt e)) name usage, iv)

/-- `NDFlagSet.ZVInt64`. -/
def ZVInt64 (name : String) (e : Int) (usage : String) : FlagEnt × Int :=
  ZVInt64Var 0 name e usage

/-- `NDFlagSet.ZVUintVar`. -/
def ZVUintVar (uiv : Nat) (name : String) (e : Nat) (usage : String) : FlagEnt × Nat :=
  (mkFlag (.zvuifV (goFormatUint e)) name usage, uiv)

/-- `NDFlagSet.ZVUint`. -/
def ZVUint (name : String) (e : Nat) (usage : String) : FlagEnt × Nat :=
  ZVUintVar 0 name e usage

/-- `NDFlagSet.ZVUint64Var`. -/
def ZVUint64Var (uiv : Nat) (name : String) (e : Nat) (usage : String) : FlagEnt × Nat :=
  (mkFlag (.zvui64fV (goFormatUint e)) name usage, uiv)

/-- `NDFlagSet.ZVUint64`. -/
def ZVUint64 (name : String) (e : Nat) (usage : String) : FlagEnt × Nat :=
  ZVUint64Var 0 name e usage

/-- `NDFlagSet.ZVFloat64Var`. -/
def ZVFloat64Var (fv : GoFloat) (name : String) (e : GoFloat) (usage : String) :
    FlagEnt × GoFloat :=
  (mkFlag (.zvffV (goFormatFloat e)) name usage, fv)

/-- `NDFlagSet.ZVFloat64`: fresh `var fv float64` (zero). -/
def ZVFloat64 (name : String) (e : GoFloat) (usage : String) : FlagEnt × GoFloat :=
  ZVFloat64Var (.finite 0) name e usage

/-- `NDFlagSet.ZVDurationVar`. -/
def ZVDurationVar (dv : Int) (name : String) (e : Int) (usage : String) : FlagEnt × Int :=
  (mkFlag (.zvdffV (durString e)) name usage, dv)

/-- `NDFlagSet.ZVDuration`. -/
def ZVDuration (name : String) (e : Int) (usage : String) : FlagEnt × Int :=
  ZVDurationVar 0 name e usage

/-!
## Registration events

To quantify over "every supported type", a registration event records
which allocate-and-register entry point was invoked and with which
arguments; `register` runs it, producing the registry entry and the
freshly allocated cell. -/

/-- One ND allocate-and-register call. -/
inductive NDRegEvent where
  | str (name e usage : String) : NDRegEvent
  | bool (name : String) (e : Bool) (usage : String) : NDRegEvent
  | int (name : String) (e : Int) (usage : String) : NDRegEvent
  | int64 (name : String) (e : Int) (usage : String) : NDRegEvent
  | uint (name : String) (e : Nat) (usage : String) : NDRegEvent
  | uint64 (name : String) (e : Nat) (usage : String) : NDRegEvent
  | float64 (name : String) (e : GoFloat) (usage : String) : NDRegEvent
  | duration (name : String) (e : Int) (usage : String) : NDRegEvent

/-- Run an ND allocate-and-register call. -/
def NDRegEvent.register : NDRegEvent → FlagEnt × Cell
  | .str n e u => let (fl, c) := NDString n e u; (fl, .ndStr c)
  | .bool n e u => let (fl, c) := NDBool n e u; (fl, .ndBool c)
  | .int n e u => let (fl, c) := NDInt n e u; (fl, .ndInt c)
  | .int64 n e u => let (fl, c) := NDInt64 n e u; (fl, .ndInt64 c)
  | .uint n e u => let (fl, c) := NDUint n e u; (fl, .ndUint c)
  | .uint64 n e u => let (fl, c) := NDUint64 n e u; (fl, .ndUint64 c)
  | .float64 n e u => let (fl, c) := NDFloat64 n e u; (fl, .ndFloat c)
  | .duration n e u => let (fl, c) := NDDuration n e u; (fl, .ndDur c)

/-- The example as each ND entry point formats it. -/
def NDRegEvent.exampleString : NDRegEvent → String
  | .str _ e _ => e
  | .bool _ e _ => goFormatBool e
  | .int _ e _ => goFormatInt e
  | .int64 _ e _ => goFormatInt e
  | .uint _ e _ => goFormatUint e
  | .uint64 _ e _ => goFormatUint e
  | .float64 _ e _ => goFormatFloat e
  | .duration _ e _ => durString e

/-- One ZV allocate-and-register call. -/
inductive ZVRegEvent where
  | str (name e usage : String) : ZVRegEvent
  | bool (name : String) (e : Bool) (usage : String) : ZVRegEvent
  | int (name : String) (e : Int) (usage : String) : ZVRegEvent
  | int64 (name : String) (e : Int) (usage : String) : ZVRegEvent
  | uint (name : String) (e : Nat) (usage : String) : ZVRegEvent
  | uint64 (name : String) (e : Nat) (usage : String) : ZVRegEvent
  | float64 (name : String) (e : GoFloat) (usage : String) : ZVRegEvent
  | duration (name : String) (e : Int) (usage : String) : ZVRegEvent

/-- Run a ZV allocate-and-register call. -/
def ZVRegEvent.register : ZVRegEvent → FlagEnt × Cell
  | .str n e u => let (fl, c) := ZVString n e u; (fl, .zvStr c)
  | .bool n e u => let (fl, c) := ZVBool n e u; (fl, .zvBool c)
  | .int n e u => let (fl, c) := ZVInt n e u; (fl, .zvInt c)
  | .int64 n e u => let (fl, c) := ZVInt64 n e u; (fl, .zvInt64 c)
  | .uint n e u => let (fl, c) := ZVUint n e u; (fl, .zvUint c)
  | .uint64 n e u => let (fl, c) := ZVUint64 n e u; (fl, .zvUint64 c)
  | .float64 n e u => let (fl, c) := ZVFloat64 n e u; (fl, .zvFloat c)
  | .duration n e u => let (fl, c) := ZVDuration n e u; (fl, .zvDur c)

/-- The example as each ZV entry point formats it. -/
def ZVRegEvent.exampleString : ZVRegEvent → String
  | .str _ e _ => e
  | .bool _ e _ => goFormatBool e
  | .int _ e _ => goFormatInt e
  | .int64 _ e _ => goFormatInt e
  | .uint _ e _ => goFormatUint e
  | .uint64 _ e _ => goFormatUint e
  | .float64 _ e _ => goFormatFloat e
  | .duration _ e _ => durString e

/-- The zero value of the cell a ZV allocate-and-register call declares. -/
def ZVRegEvent.zeroCell : ZVRegEvent → Cell
  | .str _ _ _ => .zvStr ""
  | .bool _ _ _ => .zvBool false
  | .int _ _ _ => .zvInt 0
  | .int64 _ _ _ => .zvInt64 0
  | .uint _ _ _ => .zvUint 0
  | .uint64 _ _ _ => .zvUint64 0
  | .float64 _ _ _ => .zvFloat (.finite 0)
  | .duration _ _ _ => .zvDur 0

/-- A registration by either indirection style. -/
inductive RegEvent where
  | nd (ev : NDRegEvent) : RegEvent
  | zv (ev : ZVRegEvent) : RegEvent

/-- Run either style of registration. -/
def RegEvent.register : RegEvent → FlagEnt × Cell
  | .nd ev => ev.register
  | .zv ev => ev.register

/-- The formatted example of either style of registration. -/
def RegEvent.exampleString : RegEvent → String
  | .nd ev => ev.exampleString
  | .zv ev => ev.exampleString

/-- `NDStringVar` at the outer-pointer level: the method stores the
(possibly nil) outer pointer in the adapter without inspecting it, so
registration cannot detect a nil outer pointer. -/
def NDStringVarP (sv : Option (Option String)) (name e usage : String) :
    FlagEnt × Option (Option String) :=
  (mkFlag (.ndsfV e) name usage, sv)

/-- `s` ends with `suf` (by character data). -/
def strEndsWith (s suf : String) : Bool :=
  decide (s.data.drop (s.data.length - suf.data.length) = suf.data)

theorem strEndsWith_append (a b : String) : strEndsWith (a ++ b) b = true := by
  have h : (a ++ b).data = a.data ++ b.data := rfl
  simp [strEndsWith, h]

theorem lineOf_suffix (fl : FlagEnt) :
    strEndsWith (lineOf fl)
      (" (example " ++
        (if fl.value.isNdsf then goQuote fl.defValue else fl.defValue) ++ ")") = true := by
  cases h : fl.value.isNdsf <;>
    simp only [lineOf, h, if_false, if_true, Bool.false_eq_true, ite_false, ite_true] <;>
    exact strEndsWith_append _ _

/-!
## Claim theorems
-/

/-- C3: for every input token, parse-and-store on a string adapter (both
the optional-indirection `ndsf` and the direct-indirection `zvsf`
variant) returns no error and stores the token itself, unmodified, into
the bound cell. -/
theorem string_set_identity :
    (∀ sv val, ndsfSet sv val = (some val, none)) ∧
    (∀ sv val, zvsfSet sv val = (val, none)) :=
  ⟨fun _ _ => rfl, fun _ _ => rfl⟩

/-- C7: for an optional-indirection uint64 flag (registered like `count`
with example 0), the maximum-uint64 token stores that maximum as a
present value, while one past the maximum yields the range error and
leaves the cell absent. -/
theorem nd_uint64_boundary :
    (NDUint64 "count" 0 "max count").2 = none ∧
    ndui64fSet none "18446744073709551615" = (some 18446744073709551615, none) ∧
    ndui64fSet none "18446744073709551616" =
      (none, some (.num "ParseUint" "18446744073709551616" .errRange)) := by
  refine ⟨rfl, by decide, by decide⟩

/-- C8: the bool adapters of both indirection styles provide the
`IsBoolFlag` capability returning true; the adapters of the seven
non-bool types (in both styles) do not provide it. -/
theorem bool_flag_capability (e : String) :
    NDValue.isBoolFlagM (.ndbfV e) = some true ∧
    NDValue.isBoolFlagM (.zvbfV e) = some true ∧
    NDValue.isBoolFlagM (.ndsfV e) = none ∧
    NDValue.isBoolFlagM (.ndifV e) = none ∧
    NDValue.isBoolFlagM (.ndi64fV e) = none ∧
    NDValue.isBoolFlagM (.nduifV e) = none ∧
    NDValue.isBoolFlagM (.ndui64fV e) = none ∧
    NDValue.isBoolFlagM (.ndffV e) = none ∧
    NDValue.isBoolFlagM (.nddfV e) = none ∧
    NDValue.isBoolFlagM (.zvsfV e) = none ∧
    NDValue.isBoolFlagM (.zvifV e) = none ∧
    NDValue.isBoolFlagM (.zvi64fV e) = none ∧
    NDValue.isBoolFlagM (.zvuifV e) = none ∧
    NDValue.isBoolFlagM (.zvui64fV e) = none ∧
    NDValue.isBoolFlagM (.zvffV e) = none ∧
    NDValue.isBoolFlagM (.zvdffV e) = none :=
  ⟨rfl, rfl, rfl, rfl, rfl, rfl, rfl, rfl, rfl, rfl, rfl, rfl, rfl, rfl, rfl, rfl⟩

/-- C6: for every registered flag of every supported type and either
indirection style, the registry's captured default text equals the
example string the entry point formatted from registration's example
argument (for strings, that argument verbatim), the adapter's `String()`
returns that stored example unchanged, and the usage line's example
annotation renders exactly that text (inside Go quotes for the ND string
adapter, bare otherwise). -/
theorem default_text_roundtrip (ev : RegEvent) :
    (ev.register).1.defValue = ev.exampleString ∧
    (ev.register).1.value.stringRep = ev.exampleString ∧
    strEndsWith (lineOf (ev.register).1)
      (" (example " ++
        (if (ev.register).1.value.isNdsf then goQuote ev.exampleString
         else ev.exampleString) ++ ")") = true := by
  have h1 : (ev.register).1.defValue = ev.exampleString := by
    rcases ev with e | e <;> cases e <;> rfl
  have h2 : (ev.register).1.value.stringRep = ev.exampleString := by
    rcases ev with e | e <;> cases e <;> rfl
  refine ⟨h1, h2, ?_⟩
  have := lineOf_suffix (ev.register).1
  rwa [h1] at this

/-- C10: for every direct-indirection (ZV) flag type, the allocate form
starts the cell at the type's zero value regardless of the example
(a ZV bool registered with example true included), the `*Var` forms
return the caller's cell untouched, and the example reaches only the
adapter's rendered text. -/
theorem zv_example_not_written :
    (∀ ev : ZVRegEvent, (ev.register).2 = ev.zeroCell) ∧
    (∀ n u, (ZVBool n true u).2 = false) ∧
    (∀ sv n e u, (ZVStringVar sv n e u).2 = sv) ∧
    (∀ bv n e u, (ZVBoolVar bv n e u).2 = bv) ∧
    (∀ iv n e u, (ZVIntVar iv n e u).2 = iv) ∧
    (∀ iv n e u, (ZVInt64Var iv n e u).2 = iv) ∧
    (∀ uiv n e u, (ZVUintVar uiv n e u).2 = uiv) ∧
    (∀ uiv n e u, (ZVUint64Var uiv n e u).2 = uiv) ∧
    (∀ fv n e u, (ZVFloat64Var fv n e u).2 = fv) ∧
    (∀ dv n e u, (ZVDurationVar dv n e u).2 = dv) ∧
    (∀ ev : ZVRegEvent, (ev.register).1.value.exampleStr = ev.exampleString) := by
  refine ⟨fun ev => ?_, fun _ _ => rfl, fun _ _ _ _ => rfl, fun _ _ _ _ => rfl,
    fun _ _ _ _ => rfl, fun _ _ _ _ => rfl, fun _ _ _ _ => rfl, fun _ _ _ _ => rfl,
    fun _ _ _ _ => rfl, fun _ _ _ _ => rfl, fun ev => ?_⟩ <;> cases ev <;> rfl

/-- C5 counterexample: a direct-indirection string flag (`zvsf`, here
registered via `ZVStringVar` with example `ex`) is a flag of string
type, yet its usage line carries the example unquoted — the quoted form
is not a suffix of the line, the bare form is — because `printDefaults`
tests the dynamic type against `*ndsf` only. -/
theorem zv_string_example_unquoted :
    lineOf (ZVStringVar "" "s" "ex" "u").1 = "  -s value\n    \tu (example ex)" ∧
    strEndsWith (lineOf (ZVStringVar "" "s" "ex" "u").1)
      (" (example " ++ goQuote "ex" ++ ")") = false ∧
    strEndsWith (lineOf (ZVStringVar "" "s" "ex" "u").1) " (example ex)" = true := by
  refine ⟨by decide, by decide, by decide⟩

/-- C5 amended: in the flag set's usage output, each registered flag's
line ends with an `(example <default-text>)` suffix in which the example
text is Go-quoted exactly when the flag is an optional-indirection (ND)
string flag, and unquoted for every other flag — direct-indirection
string flags included. -/
theorem example_suffix_quoting (fs : NDFlagSet) (fl : FlagEnt) (h : fl ∈ fs.flags) :
    lineOf fl ∈ ndfPrintDefaults fs ∧
    strEndsWith (lineOf fl)
      (" (example " ++
        (if fl.value.isNdsf then goQuote fl.defValue else fl.defValue) ++ ")") = true := by
  constructor
  · exact List.mem_map_of_mem _ ((List.mergeSort_perm fs.flags _).mem_iff.mpr h)
  · exact lineOf_suffix fl

theorem example_suffix_quoting_w :
    lineOf (mkFlag (.ndsfV "ex") "s" "u") ∈
      ndfPrintDefaults ⟨"prog", [mkFlag (.ndsfV "ex") "s" "u"]⟩ ∧
    strEndsWith (lineOf (mkFlag (.ndsfV "ex") "s" "u"))
      (" (example " ++
        (if (mkFlag (.ndsfV "ex") "s" "u").value.isNdsf
         then goQuote (mkFlag (.ndsfV "ex") "s" "u").defValue
         else (mkFlag (.ndsfV "ex") "s" "u").defValue) ++ ")") = true :=
  example_suffix_quoting ⟨"prog", [mkFlag (.ndsfV "ex") "s" "u"]⟩
    (mkFlag (.ndsfV "ex") "s" "u") (by simp)

/-- C2: for every adapter of a fallible type (bool, int, int64, uint,
uint64, float64, duration) in either indirection style, a token the
underlying parsing routine rejects makes parse-and-store return that
routine's error unchanged and leave the bound cell exactly as it was,
whatever it held. -/
theorem set_parse_error_unchanged (w : Nat) :
    (∀ bv val err, goParseBool val = .error err → ndbfSet bv val = (bv, some err)) ∧
    (∀ iv val err, goAtoi w val = .error err → ndifSet w iv val = (iv, some err)) ∧
    (∀ iv val err, goParseInt64 val = .error err → ndi64fSet iv val = (iv, some err)) ∧
    (∀ uiv val err, goParseUint val = .error err → nduifSet w uiv val = (uiv, some err)) ∧
    (∀ uiv val err, goParseUint val = .error err → ndui64fSet uiv val = (uiv, some err)) ∧
    (∀ fv val err, goParseFloat val = .error err → ndffSet fv val = (fv, some err)) ∧
    (∀ dv val err, goParseDuration val = .error err → nddfSet dv val = (dv, some err)) ∧
    (∀ bv val err, goParseBool val = .error err → zvbfSet bv val = (bv, some err)) ∧
    (∀ iv val err, goAtoi w val = .error err → zvifSet w iv val = (iv, some err)) ∧
    (∀ iv val err, goParseInt64 val = .error err → zvi64fSet iv val = (iv, some err)) ∧
    (∀ uiv val err, goParseUint val = .error err → zvuifSet w uiv val = (uiv, some err)) ∧
    (∀ uiv val err, goParseUint val = .error err → zvui64fSet uiv val = (uiv, some err)) ∧
    (∀ fv val err, goParseFloat val = .error err → zvffSet fv val = (fv, some err)) ∧
    (∀ dv val err, goParseDuration val = .error err → zvdffSet dv val = (dv, some err)) := by
  refine ⟨fun _ _ _ h => ?_, fun _ _ _ h => ?_, fun _ _ _ h => ?_, fun _ _ _ h => ?_,
    fun _ _ _ h => ?_, fun _ _ _ h => ?_, fun _ _ _ h => ?_, fun _ _ _ h => ?_,
    fun _ _ _ h => ?_, fun _ _ _ h => ?_, fun _ _ _ h => ?_, fun _ _ _ h => ?_,
    fun _ _ _ h => ?_, fun _ _ _ h => ?_⟩ <;>
  simp only [ndbfSet, ndifSet, ndi64fSet, nduifSet, ndui64fSet, ndffSet, nddfSet,
    zvbfSet, zvifSet, zvi64fSet, zvuifSet, zvui64fSet, zvffSet, zvdffSet, h]

theorem set_parse_error_unchanged_w :
    ndbfSet (some true) "zzz" = (some true, some (.num "ParseBool" "zzz" .errSyn)) ∧
    ndifSet 64 (some 7) "zzz" = (some 7, some (.num "Atoi" "zzz" .errSyn)) ∧
    ndi64fSet (some 7) "zzz" = (some 7, some (.num "ParseInt" "zzz" .errSyn)) ∧
    nduifSet 64 (some 7) "zzz" = (some 7, some (.num "ParseUint" "zzz" .errSyn)) ∧
    ndui64fSet (some 7) "zzz" = (some 7, some (.num "ParseUint" "zzz" .errSyn)) ∧
    ndffSet (some (.inf false)) "zzz" = (some (.inf false), some (.num "ParseFloat" "zzz" .errSyn)) ∧
    nddfSet (some 5) "bogus" = (some 5, some (.dur "time: invalid duration \"bogus\"")) ∧
    zvbfSet true "zzz" = (true, some (.num "ParseBool" "zzz" .errSyn)) ∧
    zvifSet 64 7 "zzz" = (7, some (.num "Atoi" "zzz" .errSyn)) ∧
    zvi64fSet 7 "zzz" = (7, some (.num "ParseInt" "zzz" .errSyn)) ∧
    zvuifSet 64 7 "zzz" = (7, some (.num "ParseUint" "zzz" .errSyn)) ∧
    zvui64fSet 7 "zzz" = (7, some (.num "ParseUint" "zzz" .errSyn)) ∧
    zvffSet (.inf false) "zzz" = (.inf false, some (.num "ParseFloat" "zzz" .errSyn)) ∧
    zvdffSet 5 "bogus" = (5, some (.dur "time: invalid duration \"bogus\"")) :=
  ⟨(set_parse_error_unchanged 64).1 _ _ _ (by decide),
   (set_parse_error_unchanged 64).2.1 _ _ _ (by decide),
   (set_parse_error_unchanged 64).2.2.1 _ _ _ (by decide),
   (set_parse_error_unchanged 64).2.2.2.1 _ _ _ (by decide),
   (set_parse_error_unchanged 64).2.2.2.2.1 _ _ _ (by decide),
   (set_parse_error_unchanged 64).2.2.2.2.2.1 _ _ _ (by decide),
   (set_parse_error_unchanged 64).2.2.2.2.2.2.1 _ _ _ (by decide),
   (set_parse_error_unchanged 64).2.2.2.2.2.2.2.1 _ _ _ (by decide),
   (set_parse_error_unchanged 64).2.2.2.2.2.2.2.2.1 _ _ _ (by decide),
   (set_parse_error_unchanged 64).2.2.2.2.2.2.2.2.2.1 _ _ _ (by decide),
   (set_parse_error_unchanged 64).2.2.2.2.2.2.2.2.2.2.1 _ _ _ (by decide),
   (set_parse_error_unchanged 64).2.2.2.2.2.2.2.2.2.2.2.1 _ _ _ (by decide),
   (set_parse_error_unchanged 64).2.2.2.2.2.2.2.2.2.2.2.2.1 _ _ _ (by decide),
   (set_parse_error_unchanged 64).2.2.2.2.2.2.2.2.2.2.2.2.2 _ _ _ (by decide)⟩

/-- C4: a uint adapter of either indirection style parses tokens with
the 64-bit unsigned routine and then narrows the result to the platform
uint width `w` with no range check — the stored value is the parsed
value reduced modulo `2 ^ w` — while tokens the 64-bit parse rejects
(malformed or above `2 ^ 64 - 1`) make it return that error with the
cell unchanged. -/
theorem uint_parse64_then_narrow (w : Nat) :
    (∀ uiv val pui, goParseUint val = .ok pui →
      nduifSet w uiv val = (some (pui % 2 ^ w), none)) ∧
    (∀ uiv val pui, goParseUint val = .ok pui →
      zvuifSet w uiv val = (pui % 2 ^ w, none)) ∧
    (∀ uiv val err, goParseUint val = .error err →
      nduifSet w uiv val = (uiv, some err)) ∧
    (∀ uiv val err, goParseUint val = .error err →
      zvuifSet w uiv val = (uiv, some err)) := by
  refine ⟨fun _ _ _ h => ?_, fun _ _ _ h => ?_, fun _ _ _ h => ?_, fun _ _ _ h => ?_⟩ <;>
    simp only [nduifSet, zvuifSet, h]

theorem uint_parse64_then_narrow_w :
    nduifSet 32 none "4294967296" = (some (4294967296 % 2 ^ 32), none) ∧
    zvuifSet 32 7 "4294967296" = (4294967296 % 2 ^ 32, none) ∧
    nduifSet 32 (some 7) "18446744073709551616" =
      (some 7, some (.num "ParseUint" "18446744073709551616" .errRange)) ∧
    zvuifSet 32 7 "zzz" = (7, some (.num "ParseUint" "zzz" .errSyn)) :=
  ⟨(uint_parse64_then_narrow 32).1 _ _ _ (by decide),
   (uint_parse64_then_narrow 32).2.1 _ _ _ (by decide),
   (uint_parse64_then_narrow 32).2.2.1 _ _ _ (by decide),
   (uint_parse64_then_narrow 32).2.2.2 _ _ _ (by decide)⟩

/-- C1: every ND registration starts its cell with the inner pointer
absent; no adapter operation (Set / String / Get) ever takes a present
ND cell back to absent; a parse-and-store that returns no error leaves
the cell present; and each type's successful `Set` stores exactly the
parsed value (the narrowed value, for uint) behind a fresh inner
pointer. -/
theorem nd_cell_absent_then_present (w : Nat) :
    (∀ ev : NDRegEvent, (ev.register).2.ndPresent = some false) ∧
    (∀ c : Cell, ∀ op : AdapterOp, c.ndPresent = some true →
      ((cellApply w c op).1).ndPresent = some true) ∧
    (∀ c c' : Cell, ∀ val, c.isND = true → cellSet w c val = (c', none) →
      c'.ndPresent = some true) ∧
    (∀ sv val, ndsfSet sv val = (some val, none)) ∧
    (∀ bv val pb, goParseBool val = .ok pb → ndbfSet bv val = (some pb, none)) ∧
    (∀ iv val pi, goAtoi w val = .ok pi → ndifSet w iv val = (some pi, none)) ∧
    (∀ iv val pi, goParseInt64 val = .ok pi → ndi64fSet iv val = (some pi, none)) ∧
    (∀ uiv val pui, goParseUint val = .ok pui →
      nduifSet w uiv val = (some (pui % 2 ^ w), none)) ∧
    (∀ uiv val pui, goParseUint val = .ok pui → ndui64fSet uiv val = (some pui, none)) ∧
    (∀ fv val pf, goParseFloat val = .ok pf → ndffSet fv val = (some pf, none)) ∧
    (∀ dv val pd, goParseDuration val = .ok pd → nddfSet dv val = (some pd, none)) := by
  refine ⟨fun ev => by cases ev <;> rfl, fun c op h => ?_, fun c c' val hnd hset => ?_,
    fun _ _ => rfl, fun _ _ _ h => by simp [ndbfSet, h], fun _ _ _ h => by simp [ndifSet, h],
    fun _ _ _ h => by simp [ndi64fSet, h], fun _ _ _ h => by simp [nduifSet, h],
    fun _ _ _ h => by simp [ndui64fSet, h], fun _ _ _ h => by simp [ndffSet, h],
    fun _ _ _ h => by simp [nddfSet, h]⟩
  · cases op with
    | stringOp => exact h
    | getOp => exact h
    | setOp val =>
      cases c with
      | ndStr sv => simp [cellApply, cellSet, ndsfSet, Cell.ndPresent]
      | ndBool bv =>
        rcases h2 : goParseBool val with err | pb
        · simpa [cellApply, cellSet, ndbfSet, h2, Cell.ndPresent] using h
        · simp [cellApply, cellSet, ndbfSet, h2, Cell.ndPresent]
      | ndInt iv =>
        rcases h2 : goAtoi w val with err | pi
        · simpa [cellApply, cellSet, ndifSet, h2, Cell.ndPresent] using h
        · simp [cellApply, cellSet, ndifSet, h2, Cell.ndPresent]
      | ndInt64 iv =>
        rcases h2 : goParseInt64 val with err | pi
        · simpa [cellApply, cellSet, ndi64fSet, h2, Cell.ndPresent] using h
        · simp [cellApply, cellSet, ndi64fSet, h2, Cell.ndPresent]
      | ndUint uiv =>
        rcases h2 : goParseUint val with err | pui
        · simpa [cellApply, cellSet, nduifSet, h2, Cell.ndPresent] using h
        · simp [cellApply, cellSet, nduifSet, h2, Cell.ndPresent]
      | ndUint64 uiv =>
        rcases h2 : goParseUint val with err | pui
        · simpa [cellApply, cellSet, ndui64fSet, h2, Cell.ndPresent] using h
        · simp [cellApply, cellSet, ndui64fSet, h2, Cell.ndPresent]
      | ndFloat fv =>
        rcases h2 : goParseFloat val with err | pf
        · simpa [cellApply, cellSet, ndffSet, h2, Cell.ndPresent] using h
        · simp [cellApply, cellSet, ndffSet, h2, Cell.ndPresent]
      | ndDur dv =>
        rcases h2 : goParseDuration val with err | pd
        · simpa [cellApply, cellSet, nddfSet, h2, Cell.ndPresent] using h
        · simp [cellApply, cellSet, nddfSet, h2, Cell.ndPresent]
      | zvStr sv => simp [Cell.ndPresent] at h
      | zvBool bv => simp [Cell.ndPresent] at h
      | zvInt iv => simp [Cell.ndPresent] at h
      | zvInt64 iv => simp [Cell.ndPresent] at h
      | zvUint uiv => simp [Cell.ndPresent] at h
      | zvUint64 uiv => simp [Cell.ndPresent] at h
      | zvFloat fv => simp [Cell.ndPresent] at h
      | zvDur dv => simp [Cell.ndPresent] at h
  · cases c with
    | ndStr sv =>
      simp [cellSet, ndsfSet] at hset
      subst hset; rfl
    | ndBool bv =>
      rcases h2 : goParseBool val with err | pb <;> simp [cellSet, ndbfSet, h2] at hset
      subst hset; rfl
    | ndInt iv =>
      rcases h2 : goAtoi w val with err | pi <;> simp [cellSet, ndifSet, h2] at hset
      subst hset; rfl
    | ndInt64 iv =>
      rcases h2 : goParseInt64 val with err | pi <;> simp [cellSet, ndi64fSet, h2] at hset
      subst hset; rfl
    | ndUint uiv =>
      rcases h2 : goParseUint val with err | pui <;> simp [cellSet, nduifSet, h2] at hset
      subst hset; rfl
    | ndUint64 uiv =>
      rcases h2 : goParseUint val with err | pui <;> simp [cellSet, ndui64fSet, h2] at hset
      subst hset; rfl
    | ndFloat fv =>
      rcases h2 : goParseFloat val with err | pf <;> simp [cellSet, ndffSet, h2] at hset
      subst hset; rfl
    | ndDur dv =>
      rcases h2 : goParseDuration val with err | pd <;> simp [cellSet, nddfSet, h2] at hset
      subst hset; rfl
    | zvStr sv => simp [Cell.isND] at hnd
    | zvBool bv => simp [Cell.isND] at hnd
    | zvInt iv => simp [Cell.isND] at hnd
    | zvInt64 iv => simp [Cell.isND] at hnd
    | zvUint uiv => simp [Cell.isND] at hnd
    | zvUint64 uiv => simp [Cell.isND] at hnd
    | zvFloat fv => simp [Cell.isND] at hnd
    | zvDur dv => simp [Cell.isND] at hnd

theorem nd_cell_absent_then_present_w :
    ((NDRegEvent.str "n" "e" "u").register).2.ndPresent = some false ∧
    ((cellApply 64 (.ndStr (some "x")) (.setOp "y")).1).ndPresent = some true ∧
    (Cell.ndBool (some true)).ndPresent = some true ∧
    ndsfSet none "v" = (some "v", none) ∧
    ndbfSet none "true" = (some true, none) ∧
    ndifSet 64 none "7" = (some 7, none) ∧
    ndi64fSet none "-9" = (some (-9), none) ∧
    nduifSet 64 none "5" = (some (5 % 2 ^ 64), none) ∧
    ndui64fSet none "18446744073709551615" = (some 18446744073709551615, none) ∧
    ndffSet none "inf" = (some (.inf false), none) ∧
    nddfSet none "300ms" = (some 300000000, none) :=
  ⟨(nd_cell_absent_then_present 64).1 _,
   (nd_cell_absent_then_present 64).2.1 _ _ (by decide),
   (nd_cell_absent_then_present 64).2.2.1 (.ndBool none) (.ndBool (some true)) "true"
     (by decide) (by decide),
   (nd_cell_absent_then_present 64).2.2.2.1 _ _,
   (nd_cell_absent_then_present 64).2.2.2.2.1 _ _ _ (by decide),
   (nd_cell_absent_then_present 64).2.2.2.2.2.1 _ _ _ (by decide),
   (nd_cell_absent_then_present 64).2.2.2.2.2.2.1 _ _ _ (by decide),
   (nd_cell_absent_then_present 64).2.2.2.2.2.2.2.1 _ _ _ (by decide),
   (nd_cell_absent_then_present 64).2.2.2.2.2.2.2.2.1 _ _ _ (by decide),
   (nd_cell_absent_then_present 64).2.2.2.2.2.2.2.2.2.1 _ _ _ (by decide),
   (nd_cell_absent_then_present 64).2.2.2.2.2.2.2.2.2.2 _ _ _ (by decide)⟩

/-- C9: with a non-nil outer pointer, every parse-and-store call on an
ND adapter completes without faulting; with a nil outer pointer, any
call whose token parses faults on the nil dereference (for the string
adapter, every call does), and no call ever silently succeeds — a
non-faulting call with a nil outer pointer always carries a parse error
— while the `ND*Var` registration itself stores the nil pointer without
detecting the violation. -/
theorem nd_var_nil_pointer (w : Nat) :
    (∀ p : PtrCell, ∀ val, p.outerPresent = true → ptrCellSet w p val ≠ none) ∧
    (∀ p : PtrCell, ∀ val, p.outerPresent = false → ptrParseOk w p val = true →
      ptrCellSet w p val = none) ∧
    (∀ p : PtrCell, ∀ val r, p.outerPresent = false → ptrCellSet w p val = some r →
      r.2 ≠ none) ∧
    (∀ val, ndsfSetPtr none val = none) ∧
    (∀ sv name e usage, NDStringVarP sv name e usage = (mkFlag (.ndsfV e) name usage, sv)) := by
  refine ⟨fun p val h => ?_, fun p val h hok => ?_, fun p val r h hsome => ?_,
    fun _ => rfl, fun _ _ _ _ => rfl⟩
  · cases p with
    | pStr sv =>
      cases sv with
      | none => simp [PtrCell.outerPresent] at h
      | some inner => simp [ptrCellSet, ndsfSetPtr]
    | pBool bv =>
      cases bv with
      | none => simp [PtrCell.outerPresent] at h
      | some inner =>
        rcases h2 : goParseBool val with err | pb <;> simp [ptrCellSet, ndbfSetPtr, h2]
    | pInt iv =>
      cases iv with
      | none => simp [PtrCell.outerPresent] at h
      | some inner =>
        rcases h2 : goAtoi w val with err | pi <;> simp [ptrCellSet, ndifSetPtr, h2]
    | pInt64 iv =>
      cases iv with
      | none => simp [PtrCell.outerPresent] at h
      | some inner =>
        rcases h2 : goParseInt64 val with err | pi <;> simp [ptrCellSet, ndi64fSetPtr, h2]
    | pUint uiv =>
      cases uiv with
      | none => simp [PtrCell.outerPresent] at h
      | some inner =>
        rcases h2 : goParseUint val with err | pui <;> simp [ptrCellSet, nduifSetPtr, h2]
    | pUint64 uiv =>
      cases uiv with
      | none => simp [PtrCell.outerPresent] at h
      | some inner =>
        rcases h2 : goParseUint val with err | pui <;> simp [ptrCellSet, ndui64fSetPtr, h2]
    | pFloat fv =>
      cases fv with
      | none => simp [PtrCell.outerPresent] at h
      | some inner =>
        rcases h2 : goParseFloat val with err | pf <;> simp [ptrCellSet, ndffSetPtr, h2]
    | pDur dv =>
      cases dv with
      | none => simp [PtrCell.outerPresent] at h
      | some inner =>
        rcases h2 : goParseDuration val with err | pd <;> simp [ptrCellSet, nddfSetPtr, h2]
  · cases p with
    | pStr sv =>
      cases sv with
      | none => simp [ptrCellSet, ndsfSetPtr]
      | some inner => simp [PtrCell.outerPresent] at h
    | pBool bv =>
      cases bv with
      | none =>
        rcases h2 : goParseBool val with err | pb
        · simp [ptrParseOk, h2] at hok
        · simp [ptrCellSet, ndbfSetPtr, h2]
      | some inner => simp [PtrCell.outerPresent] at h
    | pInt iv =>
      cases iv with
      | none =>
        rcases h2 : goAtoi w val with err | pi
        · simp [ptrParseOk, h2] at hok
        · simp [ptrCellSet, ndifSetPtr, h2]
      | some inner => simp [PtrCell.outerPresent] at h
    | pInt64 iv =>
      cases iv with
      | none =>
        rcases h2 : goParseInt64 val with err | pi
        · simp [ptrParseOk, h2] at hok
        · simp [ptrCellSet, ndi64fSetPtr, h2]
      | some inner => simp [PtrCell.outerPresent] at h
    | pUint uiv =>
      cases uiv with
      | none =>
        rcases h2 : goParseUint val with err | pui
        · simp [ptrParseOk, h2] at hok
        · simp [ptrCellSet, nduifSetPtr, h2]
      | some inner => simp [PtrCell.outerPresent] at h
    | pUint64 uiv =>
      cases uiv with
      | none =>
        rcases h2 : goParseUint val with err | pui
        · simp [ptrParseOk, h2] at hok
        · simp [ptrCellSet, ndui64fSetPtr, h2]
      | some inner => simp [PtrCell.outerPresent] at h
    | pFloat fv =>
      cases fv with
      | none =>
        rcases h2 : goParseFloat val with err | pf
        · simp [ptrParseOk, h2] at hok
        · simp [ptrCellSet, ndffSetPtr, h2]
      | some inner => simp [PtrCell.outerPresent] at h
    | pDur dv =>
      cases dv with
      | none =>
        rcases h2 : goParseDuration val with err | pd
        · simp [ptrParseOk, h2] at hok
        · simp [ptrCellSet, nddfSetPtr, h2]
      | some inner => simp [PtrCell.outerPresent] at h
  · cases p with
    | pStr sv =>
      cases sv with
      | none => simp [ptrCellSet, ndsfSetPtr] at hsome
      | some inner => simp [PtrCell.outerPresent] at h
    | pBool bv =>
      cases bv with
      | none =>
        rcases h2 : goParseBool val with err | pb <;>
          simp [ptrCellSet, ndbfSetPtr, h2] at hsome
        subst hsome; simp
      | some inner => simp [PtrCell.outerPresent] at h
    | pInt iv =>
      cases iv with
      | none =>
        rcases h2 : goAtoi w val with err | pi <;>
          simp [ptrCellSet, ndifSetPtr, h2] at hsome
        subst hsome; simp
      | some inner => simp [PtrCell.outerPresent] at h
    | pInt64 iv =>
      cases iv with
      | none =>
        rcases h2 : goParseInt64 val with err | pi <;>
          simp [ptrCellSet, ndi64fSetPtr, h2] at hsome
        subst hsome; simp
      | some inner => simp [PtrCell.outerPresent] at h
    | pUint uiv =>
      cases uiv with
      | none =>
        rcases h2 : goParseUint val with err | pui <;>
          simp [ptrCellSet, nduifSetPtr, h2] at hsome
        subst hsome; simp
      | some inner => simp [PtrCell.outerPresent] at h
    | pUint64 uiv =>
      cases uiv with
      | none =>
        rcases h2 : goParseUint val with err | pui <;>
          simp [ptrCellSet, ndui64fSetPtr, h2] at hsome
        subst hsome; simp
      | some inner => simp [PtrCell.outerPresent] at h
    | pFloat fv =>
      cases fv with
      | none =>
        rcases h2 : goParseFloat val with err | pf <;>
          simp [ptrCellSet, ndffSetPtr, h2] at hsome
        subst hsome; simp
      | some inner => simp [PtrCell.outerPresent] at h
    | pDur dv =>
      cases dv with
      | none =>
        rcases h2 : goParseDuration val with err | pd <;>
          simp [ptrCellSet, nddfSetPtr, h2] at hsome
        subst hsome; simp
      | some inner => simp [PtrCell.outerPresent] at h

theorem nd_var_nil_pointer_w :
    ptrCellSet 64 (.pStr (some none)) "x" ≠ none ∧
    ptrCellSet 64 (.pBool none) "true" = none ∧
    ((PtrCell.pBool none, some (GoErr.num "ParseBool" "zzz" .errSyn)) :
      PtrCell × Option GoErr).2 ≠ none ∧
    ndsfSetPtr none "x" = none ∧
    NDStringVarP none "n" "e" "u" = (mkFlag (.ndsfV "e") "n" "u", none) :=
  ⟨(nd_var_nil_pointer 64).1 _ _ (by decide),
   (nd_var_nil_pointer 64).2.1 _ _ (by decide) (by decide),
   (nd_var_nil_pointer 64).2.2.1 (.pBool none) "zzz" _ (by decide) (by decide),
   (nd_var_nil_pointer 64).2.2.2.1 _,
   (nd_var_nil_pointer 64).2.2.2.2 _ _ _ _⟩

